import Mathlib

/-!
Shallow embedding of the plan-questions decision-point engine of this
repository: the grammar parsers of
`codex-rs/tui/src/bottom_pane/plan_questions.rs` (hand-rolled line scanner)
and `codex-rs/tui2/src/bottom_pane/plan_questions.rs` (regex-based), the
shared answer codec `format_answers`, and the `PlanQuestionsView` dialog
state machine (identical, line for line, in both files).

Rust strings are modelled as Lean `String` manipulated through `List Char`
(byte-level operations in the source only ever split at ASCII characters,
so char-level splitting is equivalent).  `usize` is modelled as `Nat`
(numeric labels in the input never approach `2^64` in any behaviour the
theorems below depend on).  The outbound `app_event_tx` channel is
modelled as the list of reply strings sent so far.
-/

namespace PlanQ

/-- Whitespace test used throughout (Rust `char::is_whitespace` on the
ASCII range; the source never depends on non-ASCII whitespace). -/
def isWs (c : Char) : Bool := c.isWhitespace

/-- Drop leading whitespace of a char list (Rust `str::trim_start`). -/
def trimLeftL (l : List Char) : List Char := l.dropWhile isWs

/-- Drop trailing whitespace of a char list (Rust `str::trim_end`). -/
def trimRightL (l : List Char) : List Char := (l.reverse.dropWhile isWs).reverse

/-- Rust `str::trim`. -/
def trimL (l : List Char) : List Char := trimRightL (trimLeftL l)

/-- Rust `str::trim` on `String`. -/
def strTrim (s : String) : String := String.mk (trimL s.toList)

/-- Rust `str::to_ascii_lowercase` (Lean `Char.toLower` lowercases exactly
the ASCII uppercase letters, as the Rust function does). -/
def lowerStr (s : String) : String := String.mk (s.toList.map Char.toLower)

/-- Rust `str::eq_ignore_ascii_case`. -/
def eqIgnoreCase (a b : String) : Bool := lowerStr a = lowerStr b

/-- Substring containment on char lists (Rust `str::contains` with a
string pattern). -/
def containsL (hay pat : List Char) : Bool :=
  match hay with
  | [] => pat.isEmpty
  | _ :: t => pat.isPrefixOf hay || containsL t pat

/-- Rust `str::contains` with a string pattern. -/
def containsStr (s pat : String) : Bool := containsL s.toList pat.toList

/-- Split at the first occurrence of `sep` (Rust `str::split_once`). -/
def splitOnceL (sep : List Char) : List Char → Option (List Char × List Char)
  | [] => if sep.isPrefixOf ([] : List Char) then some ([], []) else none
  | c :: cs =>
    if sep.isPrefixOf (c :: cs) then some ([], (c :: cs).drop sep.length)
    else (splitOnceL sep cs).map (fun p => (c :: p.1, p.2))

/-- Rust `str::split_once` on `String`. -/
def splitOnceS (sep s : String) : Option (String × String) :=
  (splitOnceL sep.toList s.toList).map (fun p => (String.mk p.1, String.mk p.2))

/-- Replace every (non-overlapping, left-to-right) occurrence of `pat` by
`rep` (Rust `str::replace`; the source only uses non-empty patterns).  The
fuel argument, instantiated with the list length, only bounds the
recursion depth: one list element is consumed per step at minimum. -/
def replaceAllFuel (pat rep : List Char) : Nat → List Char → List Char
  | 0, l => l
  | _ + 1, [] => []
  | fuel + 1, c :: cs =>
    if pat ≠ [] ∧ pat.isPrefixOf (c :: cs) then
      rep ++ replaceAllFuel pat rep fuel (cs.drop (pat.length - 1))
    else c :: replaceAllFuel pat rep fuel cs

/-- Rust `str::replace` on `String`. -/
def strReplace (s pat rep : String) : String :=
  String.mk (replaceAllFuel pat.toList rep.toList s.toList.length s.toList)

/-- Split a char list into maximal whitespace-free words (Rust
`str::split_whitespace`). -/
def wordsAux : List Char → List Char → List (List Char)
  | [], acc => if acc.isEmpty then [] else [acc.reverse]
  | c :: cs, acc =>
    if isWs c then
      if acc.isEmpty then wordsAux cs [] else acc.reverse :: wordsAux cs []
    else wordsAux cs (c :: acc)

/-- `normalize_free_text` (identical in tui and tui2): collapse whitespace
runs to single spaces and trim the ends. -/
def normalize_free_text (text : String) : String :=
  String.intercalate " " ((wordsAux text.toList []).map String.mk)

/-- Split a string into lines the way Rust `str::lines` does: split on
`'\n'`, drop one final empty piece produced by a trailing newline, and
strip one trailing `'\r'` from each line. -/
def splitLinesAux : List Char → List Char → List String
  | [], acc => [String.mk acc.reverse]
  | '\n' :: cs, acc => String.mk acc.reverse :: splitLinesAux cs []
  | c :: cs, acc => splitLinesAux cs (c :: acc)

/-- Rust `str::lines`. -/
def rustLines (s : String) : List String :=
  let parts := splitLinesAux s.toList []
  let parts := match parts.getLast? with
    | some "" => parts.dropLast
    | _ => parts
  parts.map (fun l =>
    if l.toList.getLast? = some '\r' then String.mk l.toList.dropLast else l)

/-- Leading ASCII digit prefix of a char list; `none` when there is no
leading digit (`split_digits_prefix` in tui/plan_questions.rs, which
returns the digit prefix and the remainder). -/
def splitDigits (l : List Char) : Option (List Char × List Char) :=
  let ds := l.takeWhile Char.isDigit
  if ds.isEmpty then none else some (ds, l.drop ds.length)

/-- Numeric value of a digit string (Rust `str::parse::<usize>`, with the
number modelled as an unbounded `Nat`). -/
def digitsToNat (ds : List Char) : Nat :=
  ds.foldl (fun n c => n * 10 + (c.toNat - 48)) 0

end PlanQ

namespace PlanQ

/-- `QuestionKind` (identical in tui and tui2). -/
inductive QuestionKind where
  | SingleSelect
  | MultiSelect
deriving DecidableEq, Repr

/-- `QuestionOption` (identical in tui and tui2). -/
structure QuestionOption where
  title : String
  description : Option String
  is_free_text : Bool
deriving DecidableEq, Repr

/-- `PlanQuestion` (identical in tui and tui2). -/
structure PlanQuestion where
  label : String
  prompt : String
  kind : QuestionKind
  options : List QuestionOption
deriving DecidableEq, Repr

/-- `PlanQuestionRound` (identical in tui and tui2). -/
structure PlanQuestionRound where
  questions : List PlanQuestion
deriving DecidableEq, Repr

/-- `QuestionAnswer` (identical in tui and tui2). -/
structure QuestionAnswer where
  selected_option_indices : List Nat
  free_text : Option String
deriving DecidableEq, Repr

/-- `QuestionAnswer::default()`. -/
def defaultAnswer : QuestionAnswer := ⟨[], none⟩

/-- `answer_is_nonempty` (identical in tui and tui2): the free text,
trimmed, is non-empty, or the selected-index list is non-empty. -/
def answer_is_nonempty (a : QuestionAnswer) : Bool :=
  (match a.free_text with
   | some t => !(strTrim t).toList.isEmpty
   | none => false)
  || !a.selected_option_indices.isEmpty

/-- The selection part of a reply line: the 1-based first selected index
for single-select (nothing when no index is selected), the comma-joined
1-based selected indices in stored order for multi-select. -/
def selectionLine (q : PlanQuestion) (a : QuestionAnswer) : String :=
  match q.kind with
  | .SingleSelect =>
    match a.selected_option_indices.head? with
    | some sel => toString (sel + 1)
    | none => ""
  | .MultiSelect =>
    String.intercalate ","
      (a.selected_option_indices.map (fun sel => toString (sel + 1)))

/-- The reply line `format_answers` produces for one question/answer pair:
the source maps the free text through `trim` and a non-empty filter
(`if let Some(text) = ...`), emitting it when present and falling through
to the selection otherwise. -/
def answerLine (q : PlanQuestion) (a : QuestionAnswer) : String :=
  match a.free_text.map strTrim with
  | some t => if t ≠ "" then t else selectionLine q a
  | none => selectionLine q a

/-- `format_answers` (identical in tui and tui2).  The source walks
`questions.zip(answers)` pushing `'\n'` before every line but the first,
which is exactly newline-intercalation of the per-pair lines. -/
def format_answers (round : PlanQuestionRound) (answers : List QuestionAnswer) : String :=
  String.intercalate "\n"
    ((round.questions.zip answers).map (fun p => answerLine p.1 p.2))

end PlanQ

namespace PlanQ

/-- `split_first_bold_block`, close-scan: find the closing `**` after an
opening one, returning the span between and the text after. -/
def findBoldClose : List Char → Option (List Char × List Char)
  | '*' :: '*' :: rest => some ([], rest)
  | c :: rest => (findBoldClose rest).map (fun p => (c :: p.1, p.2))
  | [] => none

/-- `split_first_bold_block`, open-scan: find the first `**`, returning
the text before it and the text after it. -/
def findBoldOpen : List Char → Option (List Char × List Char)
  | '*' :: '*' :: rest => some ([], rest)
  | c :: rest => (findBoldOpen rest).map (fun p => (c :: p.1, p.2))
  | [] => none

/-- `split_first_bold_block` (identical in tui and tui2): extract the
first `**...**` span as a label (when its trimmed content is non-empty)
and return the line with the span removed; otherwise return the line
unchanged with no label. -/
def split_first_bold_block (s : String) : Option String × String :=
  match findBoldOpen s.toList with
  | none => (none, s)
  | some (before, afterOpen) =>
    match findBoldClose afterOpen with
    | none => (none, s)
    | some (inner, after) =>
      let label := String.mk (trimL inner)
      if label = "" then (none, s)
      else (some label, String.mk (before ++ after))

/-- The canonical free-text sentinel option appended by both parsers. -/
def sentinelOption : QuestionOption :=
  { title := "(None) Type your answer", description := none, is_free_text := true }

/-- Post-processing step shared by both parsers: remove the first
free-text option and push it to the back of the list (Rust
`options.remove(pos)` followed by `options.push(opt)` where `pos` is the
first free-text position). -/
def moveFirstFreeTextLast : List QuestionOption → List QuestionOption
  | [] => []
  | o :: rest =>
    if o.is_free_text then rest ++ [o]
    else o :: moveFirstFreeTextLast rest

/-- Apply `f` to the last element of a list (Rust `last_mut()`). -/
def setLast (f : QuestionOption → QuestionOption) : List QuestionOption → List QuestionOption
  | [] => []
  | [o] => [f o]
  | o :: rest => o :: setLast f rest

end PlanQ

namespace Tui

open PlanQ

/-- tui `is_decision_points_header`: the trimmed line, with leading `#`
and whitespace stripped, starts (case-insensitively) with
"Decision points" followed by end-of-line, `:`, `-`, `—`, `<`, or
whitespace. -/
def is_decision_points_header (line : String) : Bool :=
  let rest := (trimL line.toList).dropWhile (· = '#') |>.dropWhile isWs
  if "decision points".toList.isPrefixOf (rest.map Char.toLower) then
    match rest.drop 15 with
    | [] => true
    | c :: _ => c = ':' || c = '-' || c = '—' || c = '<' || isWs c
  else false

/-- tui `parse_numbered_line`: leading whitespace, digits, one of
`)` `.` `:` `-`, then required whitespace; returns the parsed number and
the remaining text with its leading whitespace stripped. -/
def parse_numbered_line (line : String) : Option (Nat × String) :=
  let t := trimLeftL line.toList
  match splitDigits t with
  | none => none
  | some (ds, rest) =>
    match rest with
    | sep :: rest2 =>
      if sep = ')' || sep = '.' || sep = ':' || sep = '-' then
        match rest2 with
        | c :: _ =>
          if isWs c then some (digitsToNat ds, String.mk (trimLeftL rest2)) else none
        | [] => none
      else none
    | [] => none

/-- tui `parse_bullet_line`: `-` or `*` then required whitespace; returns
the remaining text with leading whitespace stripped. -/
def parse_bullet_line (line : String) : Option String :=
  match trimLeftL line.toList with
  | sep :: rest =>
    if sep = '-' || sep = '*' then
      match rest with
      | c :: _ => if isWs c then some (String.mk (trimLeftL rest)) else none
      | [] => none
    else none
  | [] => none

/-- tui `looks_like_question`: the text holds a bold span or mentions a
select-type phrase. -/
def looks_like_question (rest : String) : Bool :=
  let lowered := lowerStr rest
  containsStr rest "**"
    || containsStr lowered "single-select"
    || containsStr lowered "single select"
    || containsStr lowered "multi-select"
    || containsStr lowered "multi select"
    || containsStr lowered "select all"

/-- tui `parse_question` (the same label/kind/prompt computation appears
inline in the tui2 parser): extract the bold label (else synthesize
"Question {n}"), classify the kind from select-type phrases, and strip the
bold span, select-type parentheticals, leading punctuation and extra
whitespace from the prompt, falling back to the original text when
stripping empties it. -/
def parse_question (num : Nat) (rest : String) : PlanQuestion :=
  let original := strTrim rest
  let lp := split_first_bold_block original
  let label := lp.1.getD ("Question " ++ toString num)
  let lowered := lowerStr original
  let kind :=
    if containsStr lowered "multi-select" || containsStr lowered "multi select"
        || containsStr lowered "select all" then
      QuestionKind.MultiSelect
    else QuestionKind.SingleSelect
  let prompt1 := strReplace (strReplace lp.2 "(single-select)" "") "(multi-select)" ""
  let prompt2 := normalize_free_text
    (String.mk (trimL ((trimL prompt1.toList).dropWhile
      (fun c => c = ':' || c = '-' || c = '—'))))
  let prompt := if prompt2 = "" then original else prompt2
  { label, prompt, kind, options := [] }

/-- tui `parse_option`: flag free text from the marker phrases, and split
`title` / `description` at the first `" - "` or `" — "`. -/
def parse_option (rest : String) : QuestionOption :=
  let rest := strTrim rest
  let lower := lowerStr rest
  let isFT := containsStr lower "type your answer"
    || containsStr lower "type something"
    || containsStr lower "(none)"
  match splitOnceS " - " rest with
  | some (l, r) => { title := strTrim l, description := some (strTrim r), is_free_text := isFT }
  | none =>
    match splitOnceS " — " rest with
    | some (l, r) => { title := strTrim l, description := some (strTrim r), is_free_text := isFT }
    | none => { title := rest, description := none, is_free_text := isFT }

/-- tui `append_option_description`: space-join the trimmed continuation
line onto the option's description. -/
def append_option_description (o : QuestionOption) (line : String) : QuestionOption :=
  let d := o.description.getD ""
  let d2 := if d = "" then strTrim line else d ++ " " ++ strTrim line
  { o with description := some d2 }

/-- Scanner state of the tui parser: flushed questions, the open question,
and the open option. -/
structure ScanSt where
  questions : List PlanQuestion
  current : Option PlanQuestion
  currentOption : Option QuestionOption

/-- Flush the open option into the open question (the
`if let (Some(question), Some(option)) = (current.as_mut(), current_option.take())`
pattern of the source). -/
def flushOption (st : ScanSt) : ScanSt :=
  match st.current, st.currentOption with
  | some q, some o =>
    { st with current := some { q with options := q.options ++ [o] }, currentOption := none }
  | _, _ => st

/-- Flush the open question into the result list. -/
def flushQuestion (st : ScanSt) : ScanSt :=
  match st.current with
  | some q => { st with questions := st.questions ++ [q], current := none }
  | none => st

/-- One line of the tui scanner body (the part after the terminator
check). -/
def stepLine (st : ScanSt) (line : String) : ScanSt :=
  match parse_numbered_line line with
  | some (num, rest0) =>
    let rest := strTrim rest0
    if looks_like_question rest then
      let st := flushQuestion (flushOption st)
      { st with current := some (parse_question num rest) }
    else
      match st.current with
      | some _ =>
        let st := flushOption st
        { st with currentOption := some (parse_option rest) }
      | none => st
  | none =>
    match parse_bullet_line line with
    | some rest0 =>
      let rest := strTrim rest0
      match st.current with
      | some _ =>
        let st := flushOption st
        { st with currentOption := some (parse_option rest) }
      | none => st
    | none =>
      match st.currentOption with
      | some o =>
        if (strTrim line) = "" then st
        else { st with currentOption := some (append_option_description o (strTrim line)) }
      | none => st

/-- A trimmed line that terminates the decision-points section. -/
def isTerminator (trimmed : String) : Bool :=
  eqIgnoreCase trimmed "checkpoints" || eqIgnoreCase trimmed "rollback"
    || eqIgnoreCase trimmed "plan" || eqIgnoreCase trimmed "goal"

/-- The tui scanner loop over the lines after the header. -/
def runLines (st : ScanSt) : List String → ScanSt
  | [] => st
  | line :: rest =>
    if isTerminator (strTrim line) then st
    else runLines (stepLine st line) rest

/-- Skip lines up to and including the first decision-points header;
`none` when no header exists (in which case the source's second loop runs
over an exhausted iterator and the parse returns `None`). -/
def dropThroughHeader : List String → Option (List String)
  | [] => none
  | l :: rest => if is_decision_points_header l then some rest else dropThroughHeader rest

/-- tui post-processing of one question's options: truncate to 5, then
move an existing free-text option to the end, else append the sentinel
when below 5 options, else rewrite the last option into the sentinel. -/
def fixOptions (opts0 : List QuestionOption) : List QuestionOption :=
  if (opts0.take 5).any (·.is_free_text) then moveFirstFreeTextLast (opts0.take 5)
  else if (opts0.take 5).length < 5 then opts0.take 5 ++ [sentinelOption]
  else setLast (fun o =>
    { o with title := "(None) Type your answer", description := none, is_free_text := true })
    (opts0.take 5)

/-- tui `parse_plan_question_round`. -/
def parse_plan_question_round (text : String) : Option PlanQuestionRound :=
  match dropThroughHeader (rustLines text) with
  | none => none
  | some ls =>
    let st := flushQuestion (flushOption (runLines ⟨[], none, none⟩ ls))
    if st.questions = [] then none
    else some ⟨(st.questions.take 5).map (fun q => { q with options := fixOptions q.options })⟩

end Tui

namespace Tui2

open PlanQ

/-- tui2 section regex `(?mi)^\s*Decision points\b.*$` applied to one
line: optional leading whitespace, then "Decision points"
case-insensitively, followed by a word boundary (end of line or a
non-word character). -/
def isSectionHeader (line : String) : Bool :=
  let l := trimLeftL line.toList
  if "decision points".toList.isPrefixOf (l.map Char.toLower) then
    match l.drop 15 with
    | [] => true
    | c :: _ => !(c.isAlphanum || c = '_')
  else false

/-- tui2 question regex
`^(?P<indent>\s*)(?P<num>\d+)[\)\.]\s+(?P<rest>.+)$` applied to one line.
The whitespace run after the separator is greedy, so when nothing follows
it the engine backtracks and `rest` captures the final whitespace
character (which the caller then trims away); that needs at least two
whitespace characters after the separator. -/
def matchQuestionLine (line : String) : Option (String × Nat × String) :=
  let l := line.toList
  let indent := l.takeWhile isWs
  match splitDigits (l.drop indent.length) with
  | none => none
  | some (ds, rest) =>
    match rest with
    | sep :: rest2 =>
      if sep = ')' || sep = '.' then
        let ws := rest2.takeWhile isWs
        let rest3 := rest2.drop ws.length
        if ws.isEmpty then none
        else if rest3.isEmpty then
          if ws.length ≥ 2 then some (String.mk indent, digitsToNat ds, String.mk [(ws.getLast?).getD ' '])
          else none
        else some (String.mk indent, digitsToNat ds, String.mk rest3)
      else none
    | [] => none

/-- The option-line body of the tui2 loop: free-text flag from the marker
phrases and `title`/`description` split at the first `" - "` or `" — "`. -/
def parseOption2 (rest : String) : QuestionOption :=
  let lower := lowerStr rest
  let isFT := containsStr lower "type your answer"
    || containsStr lower "type something"
    || containsStr lower "(none)"
  match splitOnceS " - " rest with
  | some (l, r) => { title := strTrim l, description := some (strTrim r), is_free_text := isFT }
  | none =>
    match splitOnceS " — " rest with
    | some (l, r) => { title := strTrim l, description := some (strTrim r), is_free_text := isFT }
    | none => { title := rest, description := none, is_free_text := isFT }

/-- The tui2 scanner loop over the lines after the section header: a
zero-indent match opens a new question; an indented match adds an option
to the open question, consuming one following 5-space-indented
non-question line as its description when the option has none. -/
def runLines2 : List String → Option PlanQuestion → List PlanQuestion → List PlanQuestion
  | [], current, qs =>
    (match current with
     | some q => qs ++ [q]
     | none => qs)
  | line :: rest, current, qs =>
    if Tui.isTerminator (strTrim line) then
      (match current with
       | some q => qs ++ [q]
       | none => qs)
    else
      match matchQuestionLine line with
      | none => runLines2 rest current qs
      | some (indent, num, rest0) =>
        let restS := strTrim rest0
        if indent = "" then
          let qs2 := match current with
            | some q => qs ++ [q]
            | none => qs
          runLines2 rest (some (Tui.parse_question num restS)) qs2
        else
          match current with
          | none => runLines2 rest current qs
          | some q =>
            let o := parseOption2 restS
            match o.description with
            | some _ => runLines2 rest (some { q with options := q.options ++ [o] }) qs
            | none =>
              match rest with
              | next :: rest2 =>
                if "     ".toList.isPrefixOf next.toList && (matchQuestionLine next).isNone then
                  runLines2 rest2
                    (some { q with options := q.options ++ [{ o with description := some (strTrim next) }] }) qs
                else
                  runLines2 (next :: rest2) (some { q with options := q.options ++ [o] }) qs
              | [] => runLines2 [] (some { q with options := q.options ++ [o] }) qs

/-- Skip lines up to and including the first section-header line (the
regex `find` leaves the cursor at the end of the matched line; the empty
remnant of that line matches neither a terminator nor the question regex,
so dropping it is equivalent). -/
def dropThroughHeader2 : List String → Option (List String)
  | [] => none
  | l :: rest => if isSectionHeader l then some rest else dropThroughHeader2 rest

/-- tui2 post-processing of one question's options: truncate to 5, then
move an existing free-text option to the end, else append the sentinel
when below 5 options, else force the last option's flag; finally force the
last option's flag unconditionally. -/
def fixOptions2 (opts0 : List QuestionOption) : List QuestionOption :=
  setLast (fun o => { o with is_free_text := true })
    (if (opts0.take 5).any (·.is_free_text) then moveFirstFreeTextLast (opts0.take 5)
     else if (opts0.take 5).length < 5 then opts0.take 5 ++ [sentinelOption]
     else setLast (fun o => { o with is_free_text := true }) (opts0.take 5))

/-- tui2 `parse_plan_question_round`. -/
def parse_plan_question_round (text : String) : Option PlanQuestionRound :=
  match dropThroughHeader2 (rustLines text) with
  | none => none
  | some ls =>
    let qs := runLines2 ls none []
    if qs = [] then none
    else some ⟨(qs.take 5).map (fun q => { q with options := fixOptions2 q.options })⟩

end Tui2

namespace PlanQ

/-- Modelled from the spec: `ScrollState` (bottom_pane/scroll_state.rs) is
not part of the sources here; per the spec the option cursor is reset on
navigation and clamped to the current question's option count.
`ScrollState::new()` starts with no selection. -/
def scrollReset : Option Nat := none

/-- Modelled from the spec: `ScrollState::clamp_selection(len)` keeps the
selection inside `[0, len)`, selecting index 0 by default, and clears it
when there are no options. -/
def clampSelection (sel : Option Nat) (len : Nat) : Option Nat :=
  if len = 0 then none else some (min (sel.getD 0) (len - 1))

/-- Modelled from the spec: `ScrollState::move_up_wrap` moves the cursor
up with wrap-around over the option count. -/
def moveUpWrap (sel : Option Nat) (len : Nat) : Option Nat :=
  if len = 0 then sel else some ((sel.getD 0 + len - 1) % len)

/-- Modelled from the spec: `ScrollState::move_down_wrap` moves the cursor
down with wrap-around over the option count. -/
def moveDownWrap (sel : Option Nat) (len : Nat) : Option Nat :=
  if len = 0 then sel else some ((sel.getD (len - 1) + 1) % len)

/-- The key events `PlanQuestionsView::handle_key_event` distinguishes
(all of kind Press; `char` carries no modifiers, any other combination
falls into `other`). -/
inductive KeyEvt where
  | esc
  | left
  | right
  | tab
  | up
  | down
  | enter
  | char (c : Char)
  | other
deriving DecidableEq, Repr

/-- `PlanQuestionsView`.  The `TextArea` free-text editor
(bottom_pane/textarea.rs, not part of the sources here) is modelled from
the spec as its text buffer with the cursor kept at the end; the
`app_event_tx` outbound channel is modelled as the list of reply texts
sent so far. -/
structure PlanQuestionsView where
  round : PlanQuestionRound
  active_tab : Nat
  selected_idx : Option Nat
  answers : List QuestionAnswer
  complete : Bool
  error : Option String
  free_text_editor : String
  is_editing_free_text : Bool
  sent_replies : List String
deriving DecidableEq, Repr

namespace PlanQuestionsView

/-- `PlanQuestionsView::new`. -/
def new (round : PlanQuestionRound) : PlanQuestionsView :=
  let initialLen := ((round.questions.head?).map (fun q => q.options.length)).getD 0
  { round
    active_tab := 0
    selected_idx := clampSelection scrollReset initialLen
    answers := List.replicate round.questions.length defaultAnswer
    complete := false
    error := none
    free_text_editor := ""
    is_editing_free_text := false
    sent_replies := [] }

/-- `active_question`. -/
def active_question (s : PlanQuestionsView) : Option PlanQuestion :=
  s.round.questions[s.active_tab]?

/-- `is_submit_tab`. -/
def is_submit_tab (s : PlanQuestionsView) : Bool :=
  s.round.questions.length ≤ s.active_tab

/-- `reset_option_cursor`. -/
def reset_option_cursor (s : PlanQuestionsView) : PlanQuestionsView :=
  let len := ((s.active_question).map (fun q => q.options.length)).getD 0
  { s with is_editing_free_text := false, selected_idx := clampSelection scrollReset len }

/-- `save_active_free_text`: when a free-text edit is in progress,
normalize the editor text, store it into the active answer's free text
(when that answer currently holds free text), reset the editor to the
normalized text and leave edit mode. -/
def save_active_free_text (s : PlanQuestionsView) : PlanQuestionsView :=
  if s.is_editing_free_text then
    let normalized := normalize_free_text s.free_text_editor
    let answers :=
      match s.answers[s.active_tab]? with
      | some a =>
        if a.free_text.isSome then
          s.answers.set s.active_tab { a with free_text := some normalized }
        else s.answers
      | none => s.answers
    { s with answers, free_text_editor := normalized, is_editing_free_text := false }
  else s

/-- `submit`: commit a pending free-text edit; with an unanswered
question, set the error message, jump back to tab 0 and reset the cursor;
otherwise send the formatted reply and finish. -/
def submit (s : PlanQuestionsView) : PlanQuestionsView :=
  let s := save_active_free_text s
  if s.answers.all answer_is_nonempty then
    let formatted := format_answers s.round s.answers
    { s with sent_replies := s.sent_replies ++ [formatted], complete := true }
  else
    reset_option_cursor
      { s with error := some "Answer all questions to submit.", active_tab := 0 }

/-- `move_tab_left`. -/
def move_tab_left (s : PlanQuestionsView) : PlanQuestionsView :=
  if 0 < s.active_tab then
    let s := save_active_free_text s
    reset_option_cursor { s with active_tab := s.active_tab - 1 }
  else s

/-- `move_tab_right`: commit a pending edit and advance; reaching the
virtual submit tab with every answer non-empty triggers `submit`,
otherwise only the cursor is reset. -/
def move_tab_right (s : PlanQuestionsView) : PlanQuestionsView :=
  let maxTab := s.round.questions.length
  if s.active_tab < maxTab then
    let s := save_active_free_text s
    let s := { s with active_tab := s.active_tab + 1 }
    if s.active_tab = maxTab ∧ s.answers.all answer_is_nonempty then submit s
    else reset_option_cursor s
  else s

/-- `move_up`. -/
def move_up (s : PlanQuestionsView) : PlanQuestionsView :=
  if s.is_editing_free_text then s
  else
    match s.active_question with
    | none => s
    | some q => { s with selected_idx := moveUpWrap s.selected_idx q.options.length }

/-- `move_down`. -/
def move_down (s : PlanQuestionsView) : PlanQuestionsView :=
  if s.is_editing_free_text then s
  else
    match s.active_question with
    | none => s
    | some q => { s with selected_idx := moveDownWrap s.selected_idx q.options.length }

/-- `toggle_selected`: clear the error; on the submit tab, submit; on a
free-text option, seed the editor with the saved free text (empty when
none), clear the structured selection and enter edit mode; on a
single-select option, select it exclusively, clear the free text and
auto-advance; on a multi-select option, toggle it (kept sorted ascending)
and clear the free text. -/
def toggle_selected (s : PlanQuestionsView) : PlanQuestionsView :=
  let s := { s with error := none }
  if s.is_submit_tab then submit s
  else
    match s.selected_idx with
    | none => s
    | some idx =>
      match s.round.questions[s.active_tab]? with
      | none => s
      | some question =>
        match question.options[idx]? with
        | none => s
        | some option =>
          if option.is_free_text then
            match s.answers[s.active_tab]? with
            | some a =>
              let existing := a.free_text.getD ""
              { s with
                answers := s.answers.set s.active_tab
                  { selected_option_indices := [], free_text := some existing }
                free_text_editor := existing
                is_editing_free_text := true }
            | none =>
              { s with free_text_editor := "", is_editing_free_text := true }
          else
            let s := { s with is_editing_free_text := false }
            match question.kind with
            | .SingleSelect =>
              let answers :=
                match s.answers[s.active_tab]? with
                | some _ =>
                  s.answers.set s.active_tab
                    { selected_option_indices := [idx], free_text := none }
                | none => s.answers
              move_tab_right { s with answers }
            | .MultiSelect =>
              let answers :=
                match s.answers[s.active_tab]? with
                | some a =>
                  s.answers.set s.active_tab
                    { selected_option_indices :=
                        (if idx ∈ a.selected_option_indices then
                          a.selected_option_indices.erase idx
                        else List.insertionSort (· ≤ ·) (a.selected_option_indices ++ [idx]))
                      free_text := none }
                | none => s.answers
              { s with answers }

/-- Modelled from the spec: `TextArea::input` of the text-editing
capability (not part of the sources here) inserts a typed character into
the buffer (cursor modelled at the end); any other key leaves the text
unchanged. -/
def textAreaInput (editor : String) (k : KeyEvt) : String :=
  match k with
  | .char c => editor ++ String.mk [c]
  | _ => editor

/-- `handle_free_text_key_event`: Esc finishes the whole view; Tab, Right
and Enter commit the edit and advance; anything else goes to the editor,
whose live text is mirrored into the active answer's free text. -/
def handle_free_text_key_event (s : PlanQuestionsView) (k : KeyEvt) : PlanQuestionsView :=
  match k with
  | .esc => { s with complete := true }
  | .tab => move_tab_right (save_active_free_text s)
  | .right => move_tab_right (save_active_free_text s)
  | .enter => move_tab_right (save_active_free_text s)
  | k2 =>
    let editor := textAreaInput s.free_text_editor k2
    let s := { s with free_text_editor := editor }
    match s.answers[s.active_tab]? with
    | some a =>
      if a.free_text.isSome then
        { s with answers := s.answers.set s.active_tab { a with free_text := some editor } }
      else s
    | none => s

/-- `handle_key_event` (Press events; a digit with no modifiers is
quick-select: move the cursor to the digit's option and toggle it). -/
def handle_key_event (s : PlanQuestionsView) (k : KeyEvt) : PlanQuestionsView :=
  if s.is_editing_free_text then handle_free_text_key_event s k
  else
    match k with
    | .esc => { s with complete := true }
    | .left => move_tab_left s
    | .right => move_tab_right s
    | .tab => move_tab_right s
    | .up => move_up s
    | .down => move_down s
    | .enter => toggle_selected s
    | .char c =>
      if c.isDigit ∧ c ≠ '0' then
        let idx := (c.toNat - 48) - 1
        match s.active_question with
        | none => s
        | some question =>
          if idx < question.options.length then
            toggle_selected { s with selected_idx := some idx }
          else s
      else s
    | .other => s

/-- `on_ctrl_c`. -/
def on_ctrl_c (s : PlanQuestionsView) : PlanQuestionsView :=
  { s with complete := true }

/-- `handle_paste`: only while editing free text and with non-empty paste;
the normalized pasted text is inserted into the editor and the live text
mirrored into the active answer's free text. -/
def handle_paste (s : PlanQuestionsView) (pasted : String) : PlanQuestionsView :=
  if !s.is_editing_free_text || pasted = "" then s
  else
    let normalized := normalize_free_text pasted
    let editor := s.free_text_editor ++ normalized
    let s := { s with free_text_editor := editor }
    match s.answers[s.active_tab]? with
    | some a =>
      if a.free_text.isSome then
        { s with answers := s.answers.set s.active_tab { a with free_text := some editor } }
      else s
    | none => s

end PlanQuestionsView

/-- The input-event surface of the view: key presses, paste, and Ctrl-C
cancellation. -/
inductive InputEvent where
  | key (k : KeyEvt)
  | paste (s : String)
  | ctrlC
deriving DecidableEq, Repr

/-- One input event consumed by the view. -/
def step (s : PlanQuestionsView) (e : InputEvent) : PlanQuestionsView :=
  match e with
  | .key k => s.handle_key_event k
  | .paste p => s.handle_paste p
  | .ctrlC => s.on_ctrl_c

end PlanQ

open PlanQ

namespace PlanQ

/-- The mutual-exclusion invariant on answer vectors: an answer holding
free text (even empty) holds no selected indices.  It implies §3
invariant 5 (never both a non-empty selection and non-empty free text). -/
def ansInv (l : List QuestionAnswer) : Prop :=
  ∀ a ∈ l, a.free_text.isSome = true → a.selected_option_indices = []

end PlanQ

/-- The reply line as the spec words it: the trimmed free text when
non-empty; else for SingleSelect the 1-based decimal index of the single
selected option; else for MultiSelect the 1-based indices of all selected
options in ascending order, comma-joined with no spaces. -/
def answerLineSpec (q : PlanQuestion) (a : QuestionAnswer) : String :=
  if strTrim (a.free_text.getD "") ≠ "" then
    strTrim (a.free_text.getD "")
  else
    match q.kind with
    | .SingleSelect =>
      match a.selected_option_indices with
      | [sel] => toString (sel + 1)
      | _ => ""
    | .MultiSelect =>
      String.intercalate ","
        ((List.insertionSort (· ≤ ·) a.selected_option_indices).map
          (fun sel => toString (sel + 1)))

/-- The encode contract as the spec words it: one line per question,
newline-joined, in question order. -/
def format_answers_spec (round : PlanQuestionRound) (answers : List QuestionAnswer) : String :=
  String.intercalate "\n"
    ((round.questions.zip answers).map (fun p => answerLineSpec p.1 p.2))

/-- A two-question round exercising both kinds for the C2 witness. -/
def mixedRound : PlanQuestionRound :=
  ⟨[{ label := "Q1", prompt := "Pick some", kind := .MultiSelect,
      options := [⟨"A", none, false⟩, ⟨"B", none, false⟩, ⟨"C", none, false⟩,
                  ⟨"D", none, false⟩, sentinelOption] },
    { label := "Q2", prompt := "Pick one", kind := .SingleSelect,
      options := [⟨"A", none, false⟩, ⟨"B", none, false⟩, sentinelOption] }]⟩

/-- A well-formed answer vector for `mixedRound`: indices 0,2,3 selected
on the MultiSelect question, index 1 on the SingleSelect question. -/
def mixedAnswers : List QuestionAnswer := [⟨[0, 2, 3], none⟩, ⟨[1], none⟩]

/-- Input whose single question carries two option lines that both match a
free-text marker phrase. -/
def twoFreeTextInput : String :=
  "Decision points\n1) **Q** (single-select): pick\n  1. (None) a\n  2. (None) b\n"

/-- Input whose recognized question line is followed by no recognizable
option lines. -/
def noOptionsInput : String :=
  "Decision points\n1) **Scope** (single-select): Choose one\n"

/-- A well-formed decision-points input (spec Scenario B, with indented
option lines so that both parsers recognize them). -/
def goodInput : String :=
  "Decision points\n1) **Scope** (single-select): Choose one\n  1. Option A\n  2. Option B\n"

/-- The round both parsers produce from `goodInput`. -/
def goodRound : PlanQuestionRound :=
  ⟨[{ label := "Scope", prompt := "Choose one", kind := .SingleSelect,
      options := [⟨"Option A", none, false⟩, ⟨"Option B", none, false⟩, sentinelOption] }]⟩

/-- The single question of `goodRound`. -/
def goodQuestion : PlanQuestion :=
  { label := "Scope", prompt := "Choose one", kind := .SingleSelect,
    options := [⟨"Option A", none, false⟩, ⟨"Option B", none, false⟩, sentinelOption] }

/-- The colon-separated variant of `parenSeparatorInput`. -/
def colonSeparatorInput : String :=
  "Decision points\n1: **Scope** (single-select): Choose one\n  1. Option A\n  2. Option B\n"

/-- The `)`-separated question line with the same content. -/
def parenSeparatorInput : String :=
  "Decision points\n1) **Scope** (single-select): Choose one\n  1. Option A\n  2. Option B\n"

/-- A state with a pending (un-normalized) free-text edit on question 0
while question 1 is unanswered. -/
def editingState : PlanQuestionsView :=
  { round := mixedRound, active_tab := 0, selected_idx := some 4,
    answers := [⟨[], some "  a  b "⟩, ⟨[], none⟩], complete := false, error := none,
    free_text_editor := "  a  b ", is_editing_free_text := true, sent_replies := [] }

/-- A non-editing state whose second answer is empty. -/
def incompleteState : PlanQuestionsView :=
  { round := mixedRound, active_tab := 1, selected_idx := some 0,
    answers := [⟨[0], none⟩, ⟨[], none⟩], complete := false, error := none,
    free_text_editor := "", is_editing_free_text := false, sent_replies := [] }

/-- A non-editing state whose cursor rests on the free-text sentinel of
the answered second question. -/
def sentinelCursorState : PlanQuestionsView :=
  { round := mixedRound, active_tab := 1, selected_idx := some 2,
    answers := [⟨[0], none⟩, ⟨[1], none⟩], complete := false, error := none,
    free_text_editor := "", is_editing_free_text := false, sent_replies := [] }

/-- Scenario A's round: two SingleSelect questions, each with options
[Option A, Option B, free-text sentinel]. -/
def scenarioARound : PlanQuestionRound :=
  ⟨[{ label := "Q1", prompt := "Pick one", kind := .SingleSelect,
      options := [⟨"Option A", none, false⟩, ⟨"Option B", none, false⟩, sentinelOption] },
    { label := "Q2", prompt := "Pick one", kind := .SingleSelect,
      options := [⟨"Option A", none, false⟩, ⟨"Option B", none, false⟩, sentinelOption] }]⟩

/-- A one-question round for the C7 counterexample. -/
def oneQuestionRound : PlanQuestionRound := ⟨[goodQuestion]⟩

namespace PlanQ

theorem moveFirstFreeTextLast_length (l : List QuestionOption) :
    (moveFirstFreeTextLast l).length = l.length := by
  induction l with
  | nil => rfl
  | cons o rest ih =>
    unfold moveFirstFreeTextLast
    split
    · simp
    · simp [ih]

theorem moveFirstFreeTextLast_getLast?
    (l : List QuestionOption) (h : l.any (·.is_free_text) = true) :
    ((moveFirstFreeTextLast l).getLast?).map (·.is_free_text) = some true := by
  induction l with
  | nil => simp at h
  | cons o rest ih =>
    unfold moveFirstFreeTextLast
    split
    · next hft => simp [List.getLast?_concat, hft]
    · next hft =>
      have hrest : rest.any (·.is_free_text) = true := by
        simp only [List.any_cons, hft, Bool.false_or] at h
        exact h
      have := ih hrest
      have hne : moveFirstFreeTextLast rest ≠ [] := by
        intro hnil
        rw [hnil] at this
        simp at this
      rw [show o :: moveFirstFreeTextLast rest = [o] ++ moveFirstFreeTextLast rest from rfl,
        List.getLast?_append_of_ne_nil _ hne]
      exact this

theorem setLast_length (f : QuestionOption → QuestionOption) (l : List QuestionOption) :
    (setLast f l).length = l.length := by
  induction l with
  | nil => rfl
  | cons o rest ih =>
    cases rest with
    | nil => rfl
    | cons b rest2 =>
      show (o :: setLast f (b :: rest2)).length = _
      simp only [List.length_cons, ih]

theorem setLast_getLast? (f : QuestionOption → QuestionOption)
    (hf : ∀ o, (f o).is_free_text = true) (l : List QuestionOption) (h : l ≠ []) :
    ((setLast f l).getLast?).map (·.is_free_text) = some true := by
  induction l with
  | nil => exact absurd rfl h
  | cons o rest ih =>
    cases rest with
    | nil => simp [setLast, hf]
    | cons b rest2 =>
      have := ih (by simp)
      have hne : setLast f (b :: rest2) ≠ [] := by
        intro hnil
        rw [hnil] at this
        simp at this
      rw [show setLast f (o :: b :: rest2) = [o] ++ setLast f (b :: rest2) from rfl,
        List.getLast?_append_of_ne_nil _ hne]
      exact this

theorem any_ne_nil {α : Type} (l : List α) (p : α → Bool) (h : l.any p = true) : l ≠ [] := by
  intro hnil
  rw [hnil] at h
  simp at h

theorem moveFirstFreeTextLast_ne_nil (l : List QuestionOption)
    (h : l ≠ []) : moveFirstFreeTextLast l ≠ [] := by
  intro hnil
  have := moveFirstFreeTextLast_length l
  rw [hnil] at this
  exact h (List.length_eq_zero.mp this.symm)

end PlanQ

namespace Tui

open PlanQ

theorem fixOptions_getLast? (opts : List QuestionOption) :
    ((fixOptions opts).getLast?).map (·.is_free_text) = some true := by
  unfold fixOptions
  split
  · next h => exact moveFirstFreeTextLast_getLast? _ h
  · split
    · simp [List.getLast?_concat, sentinelOption]
    · next hlen =>
      apply setLast_getLast?
      · intro o
        rfl
      · intro hnil
        rw [hnil] at hlen
        simp at hlen

theorem fixOptions_length (opts : List QuestionOption) :
    1 ≤ (fixOptions opts).length ∧ (fixOptions opts).length ≤ 5 := by
  unfold fixOptions
  have htake : (opts.take 5).length ≤ 5 := by
    simp [List.length_take]
  split
  · next h =>
    rw [moveFirstFreeTextLast_length]
    refine ⟨?_, htake⟩
    have := any_ne_nil _ _ h
    have := List.length_pos.mpr this
    omega
  · next hlen =>
    split
    · next hlt =>
      simp only [List.length_append, List.length_cons, List.length_nil]
      omega
    · next hge =>
      rw [setLast_length]
      omega

theorem parse_round_inv (text : String) (r : PlanQuestionRound)
    (h : parse_plan_question_round text = some r) :
    ∃ qs : List PlanQuestion, qs ≠ [] ∧
      r.questions = (qs.take 5).map (fun q => { q with options := fixOptions q.options }) := by
  unfold parse_plan_question_round at h
  cases hdr : dropThroughHeader (rustLines text) with
  | none => rw [hdr] at h; simp at h
  | some ls =>
    rw [hdr] at h
    dsimp only at h
    split at h
    · simp at h
    · next hne =>
      refine ⟨(flushQuestion (flushOption (runLines ⟨[], none, none⟩ ls))).questions, hne, ?_⟩
      have := Option.some.inj h
      rw [← this]

end Tui

namespace Tui2

open PlanQ

theorem fixOptions2_getLast? (opts : List QuestionOption) :
    ((fixOptions2 opts).getLast?).map (·.is_free_text) = some true := by
  unfold fixOptions2
  apply setLast_getLast?
  · intro o
    rfl
  · split
    · next h => exact moveFirstFreeTextLast_ne_nil _ (any_ne_nil _ _ h)
    · split
      · simp
      · next hge =>
        intro hnil
        have := setLast_length (fun o => { o with is_free_text := true }) (opts.take 5)
        rw [hnil] at this
        have h0 : (opts.take 5).length = 0 := this.symm
        have hle : (opts.take 5).length ≤ 5 := by simp [List.length_take]
        omega

theorem fixOptions2_length (opts : List QuestionOption) :
    1 ≤ (fixOptions2 opts).length ∧ (fixOptions2 opts).length ≤ 5 := by
  unfold fixOptions2
  rw [setLast_length]
  have htake : (opts.take 5).length ≤ 5 := by
    simp [List.length_take]
  split
  · next h =>
    rw [moveFirstFreeTextLast_length]
    refine ⟨?_, htake⟩
    have := List.length_pos.mpr (any_ne_nil _ _ h)
    omega
  · split
    · next hlt =>
      simp only [List.length_append, List.length_cons, List.length_nil]
      omega
    · next hge =>
      rw [setLast_length]
      omega

theorem parse_round_inv2 (text : String) (r : PlanQuestionRound)
    (h : parse_plan_question_round text = some r) :
    ∃ qs : List PlanQuestion, qs ≠ [] ∧
      r.questions = (qs.take 5).map (fun q => { q with options := fixOptions2 q.options }) := by
  unfold parse_plan_question_round at h
  cases hdr : dropThroughHeader2 (rustLines text) with
  | none => rw [hdr] at h; simp at h
  | some ls =>
    rw [hdr] at h
    dsimp only at h
    split at h
    · simp at h
    · next hne =>
      refine ⟨runLines2 ls none [], hne, ?_⟩
      have := Option.some.inj h
      rw [← this]

end Tui2

open PlanQ

/-- C1, counterexample: on an input whose question has two option lines
matching a free-text marker phrase, the tui parser returns a Round whose
question has TWO options with `is_free_text = true` (the first of which is
not the last element), refuting "exactly one free-text Option per
Question". -/
theorem C1_counterexample :
    (Tui.parse_plan_question_round twoFreeTextInput).map
      (fun r => r.questions.map (fun q => q.options.map (fun o => o.is_free_text)))
      = some [[true, true]] := by
  decide

/-- C1, amended: for every input on which parse (either implementation)
returns a Round, every Question has at least one free-text Option and the
last Option is free-text; inputs with two or more free-text-marked option
lines can leave additional free-text Options before it. -/
theorem C1_last_option_free_text (text : String) (r : PlanQuestionRound)
    (h : Tui.parse_plan_question_round text = some r ∨
      Tui2.parse_plan_question_round text = some r) :
    ∀ q ∈ r.questions, (q.options.getLast?).map (fun o => o.is_free_text) = some true := by
  intro q hq
  rcases h with h | h
  · obtain ⟨qs, -, hqs⟩ := Tui.parse_round_inv text r h
    rw [hqs] at hq
    obtain ⟨q0, -, rfl⟩ := List.mem_map.mp hq
    exact Tui.fixOptions_getLast? q0.options
  · obtain ⟨qs, -, hqs⟩ := Tui2.parse_round_inv2 text r h
    rw [hqs] at hq
    obtain ⟨q0, -, rfl⟩ := List.mem_map.mp hq
    exact Tui2.fixOptions2_getLast? q0.options

/-- C1, witness: the amended theorem applied to a concrete parse. -/
theorem C1_witness :
    (goodQuestion.options.getLast?).map (fun o => o.is_free_text) = some true :=
  C1_last_option_free_text goodInput goodRound (Or.inl (by decide)) goodQuestion (by decide)

/-- C6, counterexample: a recognized question line followed by no
recognizable option lines yields a Round whose question has exactly ONE
option (the appended sentinel), refuting `2 ≤ options.len()`. -/
theorem C6_counterexample :
    (Tui.parse_plan_question_round noOptionsInput).map
      (fun r => r.questions.map (fun q => q.options.length)) = some [1] := by
  decide

/-- C6, amended: for every input on which parse (either implementation)
returns a Round, the Round has between 1 and 5 Questions and every
Question has between 1 and 5 options (a question line followed by no
recognizable option lines yields exactly the sentinel option). -/
theorem C6_round_bounds (text : String) (r : PlanQuestionRound)
    (h : Tui.parse_plan_question_round text = some r ∨
      Tui2.parse_plan_question_round text = some r) :
    (1 ≤ r.questions.length ∧ r.questions.length ≤ 5) ∧
    ∀ q ∈ r.questions, 1 ≤ q.options.length ∧ q.options.length ≤ 5 := by
  rcases h with h | h
  · obtain ⟨qs, hne, hqs⟩ := Tui.parse_round_inv text r h
    have hlen : 0 < qs.length := List.length_pos.mpr hne
    constructor
    · rw [hqs]
      simp only [List.length_map, List.length_take]
      omega
    · intro q hq
      rw [hqs] at hq
      obtain ⟨q0, -, rfl⟩ := List.mem_map.mp hq
      exact Tui.fixOptions_length q0.options
  · obtain ⟨qs, hne, hqs⟩ := Tui2.parse_round_inv2 text r h
    have hlen : 0 < qs.length := List.length_pos.mpr hne
    constructor
    · rw [hqs]
      simp only [List.length_map, List.length_take]
      omega
    · intro q hq
      rw [hqs] at hq
      obtain ⟨q0, -, rfl⟩ := List.mem_map.mp hq
      exact Tui2.fixOptions2_length q0.options

/-- C6, witness: the amended theorem applied to a concrete parse. -/
theorem C6_witness :
    (1 ≤ goodRound.questions.length ∧ goodRound.questions.length ≤ 5) ∧
    ∀ q ∈ goodRound.questions, 1 ≤ q.options.length ∧ q.options.length ≤ 5 :=
  C6_round_bounds goodInput goodRound (Or.inl (by decide))

/-- C8, counterexample: in the tui2 (regex-based) parser the colon
separator is NOT recognized — the colon input parses to no Round at all
while the `)` input parses to a Round — refuting "in each of the two
parser implementations". -/
theorem C8_counterexample :
    Tui2.parse_plan_question_round colonSeparatorInput = none ∧
    (Tui2.parse_plan_question_round parenSeparatorInput).isSome = true := by
  decide

/-- C8, amended: in the tui (hand-rolled) parser a colon-separated
numbered question line parses identically to the `)`-separated one,
yielding the question labeled "Scope"; the tui2 (regex-based) parser
accepts only `)` and `.` separators and rejects the colon input. -/
theorem C8_colon_separator :
    Tui.parse_plan_question_round colonSeparatorInput
        = Tui.parse_plan_question_round parenSeparatorInput ∧
    (Tui.parse_plan_question_round colonSeparatorInput).map
        (fun r => r.questions.map (fun q => q.label)) = some ["Scope"] ∧
    Tui2.parse_plan_question_round colonSeparatorInput = none := by
  decide

/-- C2: for every Round and every answer vector of the same length whose
answers are well-formed in the sense of the data model (selected indices
stored in ascending order, and a SingleSelect answer without effective
free text holding exactly one selected index — the "single selected
option" of the claim), `format_answers` produces exactly the spec's
encoding: one line per question, newline-joined in question order, each
line being the trimmed free text when non-empty, else the 1-based index
for SingleSelect, else the ascending comma-joined 1-based indices for
MultiSelect. -/
theorem C2_format_answers_spec (round : PlanQuestionRound) (answers : List QuestionAnswer)
    (_hlen : answers.length = round.questions.length)
    (hwf : ∀ p ∈ round.questions.zip answers,
      List.Sorted (· ≤ ·) p.2.selected_option_indices ∧
        (p.1.kind = QuestionKind.SingleSelect →
          strTrim (p.2.free_text.getD "") = "" →
          p.2.selected_option_indices.length = 1)) :
    format_answers round answers = format_answers_spec round answers := by
  unfold format_answers format_answers_spec
  congr 1
  apply List.map_congr_left
  intro p hp
  obtain ⟨hsorted, hsingle⟩ := hwf p hp
  unfold answerLine answerLineSpec
  cases hft : p.2.free_text with
  | none =>
    simp only [hft, Option.map_none', Option.getD_none]
    rw [if_neg (by decide)]
    cases hkind : p.1.kind with
    | SingleSelect =>
      have h1 := hsingle hkind (by rw [hft]; decide)
      obtain ⟨sel, hsel⟩ := List.length_eq_one.mp h1
      unfold selectionLine
      rw [hkind, hsel]
      rfl
    | MultiSelect =>
      unfold selectionLine
      rw [hkind, List.Sorted.insertionSort_eq hsorted]
  | some t =>
    simp only [hft, Option.map_some', Option.getD_some]
    by_cases hemp : strTrim t = ""
    · rw [if_neg (by simp [hemp]), if_neg (by simp [hemp])]
      cases hkind : p.1.kind with
      | SingleSelect =>
        have h1 := hsingle hkind (by rw [hft]; exact hemp)
        obtain ⟨sel, hsel⟩ := List.length_eq_one.mp h1
        unfold selectionLine
        rw [hkind, hsel]
        rfl
      | MultiSelect =>
        unfold selectionLine
        rw [hkind, List.Sorted.insertionSort_eq hsorted]
    · rw [if_pos hemp, if_pos hemp]

/-- C2, witness: the theorem applied to a concrete round and answers
(selecting 0-based indices 0,2,3 yields the line "1,3,4"). -/
theorem C2_witness :
    format_answers mixedRound mixedAnswers = format_answers_spec mixedRound mixedAnswers :=
  C2_format_answers_spec mixedRound mixedAnswers (by decide)
    (by
      intro p hp
      fin_cases hp
      · exact ⟨by decide, fun hk _ => absurd hk (by decide)⟩
      · exact ⟨by decide, fun _ _ => by decide⟩)

namespace PlanQ

theorem ansInv_set {l : List QuestionAnswer} {x : QuestionAnswer} (h : ansInv l)
    (hx : x.free_text.isSome = true → x.selected_option_indices = []) (i : Nat) :
    ansInv (l.set i x) := by
  intro a ha
  rcases List.mem_or_eq_of_mem_set ha with h1 | h1
  · exact h a h1
  · subst h1
    exact hx

namespace PlanQuestionsView

theorem ansInv_save (s : PlanQuestionsView) (h : ansInv s.answers) :
    ansInv (save_active_free_text s).answers := by
  simp only [save_active_free_text]
  split
  · cases hga : s.answers[s.active_tab]? with
    | none => exact h
    | some a =>
      dsimp only
      split
      · next hsome =>
        apply ansInv_set h
        intro _
        exact h a (List.getElem?_mem hga) hsome
      · exact h
  · exact h

theorem ansInv_reset (s : PlanQuestionsView) (h : ansInv s.answers) :
    ansInv (reset_option_cursor s).answers := h

theorem ansInv_submit (s : PlanQuestionsView) (h : ansInv s.answers) :
    ansInv (submit s).answers := by
  simp only [submit]
  split
  · exact ansInv_save s h
  · exact ansInv_save s h

theorem ansInv_move_tab_left (s : PlanQuestionsView) (h : ansInv s.answers) :
    ansInv (move_tab_left s).answers := by
  simp only [move_tab_left]
  split
  · exact ansInv_save s h
  · exact h

theorem ansInv_move_tab_right (s : PlanQuestionsView) (h : ansInv s.answers) :
    ansInv (move_tab_right s).answers := by
  simp only [move_tab_right]
  split
  · split
    · exact ansInv_submit _ (ansInv_save s h)
    · exact ansInv_save s h
  · exact h

theorem ansInv_move_up (s : PlanQuestionsView) (h : ansInv s.answers) :
    ansInv (move_up s).answers := by
  simp only [move_up]
  split
  · exact h
  · split
    · exact h
    · exact h

theorem ansInv_move_down (s : PlanQuestionsView) (h : ansInv s.answers) :
    ansInv (move_down s).answers := by
  simp only [move_down]
  split
  · exact h
  · split
    · exact h
    · exact h

theorem ansInv_toggle_selected (s : PlanQuestionsView) (h : ansInv s.answers) :
    ansInv (toggle_selected s).answers := by
  simp only [toggle_selected]
  split
  · exact ansInv_submit _ h
  · cases hsel : s.selected_idx with
    | none => exact h
    | some idx =>
      dsimp only
      cases hq : s.round.questions[s.active_tab]? with
      | none => exact h
      | some question =>
        dsimp only
        cases hopt : question.options[idx]? with
        | none => exact h
        | some option =>
          dsimp only
          split
          · cases hga : s.answers[s.active_tab]? with
            | none => exact h
            | some a =>
              dsimp only
              apply ansInv_set h
              intro _
              rfl
          · cases hkind : question.kind with
            | SingleSelect =>
              dsimp only
              apply ansInv_move_tab_right
              cases hga : s.answers[s.active_tab]? with
              | none => exact h
              | some a =>
                dsimp only
                apply ansInv_set h
                intro hx
                simp at hx
            | MultiSelect =>
              dsimp only
              cases hga : s.answers[s.active_tab]? with
              | none => exact h
              | some a =>
                dsimp only
                apply ansInv_set h
                intro hx
                simp at hx

theorem ansInv_handle_free_text (s : PlanQuestionsView) (k : KeyEvt)
    (h : ansInv s.answers) : ansInv (handle_free_text_key_event s k).answers := by
  cases k with
  | esc => exact h
  | tab => exact ansInv_move_tab_right _ (ansInv_save s h)
  | right => exact ansInv_move_tab_right _ (ansInv_save s h)
  | enter => exact ansInv_move_tab_right _ (ansInv_save s h)
  | left =>
    simp only [handle_free_text_key_event]
    cases hga : s.answers[s.active_tab]? with
    | none => exact h
    | some a =>
      dsimp only
      split
      · next hsome =>
        dsimp only
        apply ansInv_set h
        intro _
        exact h a (List.getElem?_mem hga) hsome
      · exact h
  | up =>
    simp only [handle_free_text_key_event]
    cases hga : s.answers[s.active_tab]? with
    | none => exact h
    | some a =>
      dsimp only
      split
      · next hsome =>
        dsimp only
        apply ansInv_set h
        intro _
        exact h a (List.getElem?_mem hga) hsome
      · exact h
  | down =>
    simp only [handle_free_text_key_event]
    cases hga : s.answers[s.active_tab]? with
    | none => exact h
    | some a =>
      dsimp only
      split
      · next hsome =>
        dsimp only
        apply ansInv_set h
        intro _
        exact h a (List.getElem?_mem hga) hsome
      · exact h
  | char c =>
    simp only [handle_free_text_key_event]
    cases hga : s.answers[s.active_tab]? with
    | none => exact h
    | some a =>
      dsimp only
      split
      · next hsome =>
        dsimp only
        apply ansInv_set h
        intro _
        exact h a (List.getElem?_mem hga) hsome
      · exact h
  | other =>
    simp only [handle_free_text_key_event]
    cases hga : s.answers[s.active_tab]? with
    | none => exact h
    | some a =>
      dsimp only
      split
      · next hsome =>
        dsimp only
        apply ansInv_set h
        intro _
        exact h a (List.getElem?_mem hga) hsome
      · exact h

theorem ansInv_handle_key_event (s : PlanQuestionsView) (k : KeyEvt)
    (h : ansInv s.answers) : ansInv (handle_key_event s k).answers := by
  simp only [handle_key_event]
  split
  · exact ansInv_handle_free_text s k h
  · cases k with
    | esc => exact h
    | left => exact ansInv_move_tab_left s h
    | right => exact ansInv_move_tab_right s h
    | tab => exact ansInv_move_tab_right s h
    | up => exact ansInv_move_up s h
    | down => exact ansInv_move_down s h
    | enter => exact ansInv_toggle_selected s h
    | char c =>
      dsimp only
      split
      · split
        · exact h
        · split
          · exact ansInv_toggle_selected _ h
          · exact h
      · exact h
    | other => exact h

theorem ansInv_handle_paste (s : PlanQuestionsView) (p : String)
    (h : ansInv s.answers) : ansInv (handle_paste s p).answers := by
  simp only [handle_paste]
  split
  · exact h
  · cases hga : s.answers[s.active_tab]? with
    | none => exact h
    | some a =>
      dsimp only
      split
      · next hsome =>
        dsimp only
        apply ansInv_set h
        intro _
        exact h a (List.getElem?_mem hga) hsome
      · exact h

end PlanQuestionsView

theorem ansInv_step (s : PlanQuestionsView) (e : InputEvent)
    (h : ansInv s.answers) : ansInv (step s e).answers := by
  cases e with
  | key k => exact PlanQuestionsView.ansInv_handle_key_event s k h
  | paste p => exact PlanQuestionsView.ansInv_handle_paste s p h
  | ctrlC => exact h

theorem ansInv_foldl (evs : List InputEvent) (s : PlanQuestionsView)
    (h : ansInv s.answers) : ansInv (List.foldl step s evs).answers := by
  induction evs generalizing s with
  | nil => exact h
  | cons e rest ih => exact ih (step s e) (ansInv_step s e h)

theorem ansInv_new (round : PlanQuestionRound) :
    ansInv (PlanQuestionsView.new round).answers := by
  intro a ha hsome
  have := List.eq_of_mem_replicate ha
  subst this
  simp [defaultAnswer] at hsome

end PlanQ

namespace PlanQ

theorem save_id (s : PlanQuestionsView) (h : s.is_editing_free_text = false) :
    PlanQuestionsView.save_active_free_text s = s := by
  unfold PlanQuestionsView.save_active_free_text
  rw [h]
  rfl

theorem all_replicate_default_false (n : Nat) (hn : 0 < n) :
    (List.replicate n defaultAnswer).all answer_is_nonempty = false := by
  cases n with
  | zero => omega
  | succ m =>
    rw [List.replicate_succ, List.all_cons]
    rfl

end PlanQ

/-- C4: for every round and every sequence of input events applied from
the initial state, no resulting Answer simultaneously has a non-empty
selected-index set and a non-empty free-text string (a consequence of the
invariant that an Answer holding free text holds no selected indices,
preserved by every transition: activating the sentinel clears the
selection and selecting an option clears the free text). -/
theorem C4_mutual_exclusion (round : PlanQuestionRound) (evs : List InputEvent)
    (a : QuestionAnswer)
    (ha : a ∈ (List.foldl step (PlanQuestionsView.new round) evs).answers) :
    ¬(a.selected_option_indices ≠ [] ∧ ∃ t, a.free_text = some t ∧ t ≠ "") := by
  rintro ⟨hsel, t, hft, -⟩
  have hinv := ansInv_foldl evs _ (ansInv_new round)
  exact hsel (hinv a ha (by rw [hft]; rfl))

/-- C4, witness: the theorem applied to a concrete round, event sequence
and member answer. -/
theorem C4_witness :
    ¬(defaultAnswer.selected_option_indices ≠ [] ∧
      ∃ t, defaultAnswer.free_text = some t ∧ t ≠ "") :=
  C4_mutual_exclusion goodRound [] defaultAnswer (by decide)

/-- C3, counterexample: submitting `editingState` (answer 0 answered via
free text, answer 1 empty) resets `active_tab` to 0 even though the first
unanswered question is index 1, and changes answer 0 (its free text is
whitespace-normalized by the pending-edit commit), refuting "resets
active_tab to the index of the first unanswered question" and "leaves
every Answer unchanged". -/
theorem C3_counterexample :
    (PlanQuestionsView.submit editingState).answers ≠ editingState.answers ∧
    (PlanQuestionsView.submit editingState).active_tab = 0 ∧
    (editingState.answers[0]?).map answer_is_nonempty = some true ∧
    (editingState.answers[1]?).map answer_is_nonempty = some false ∧
    (PlanQuestionsView.submit editingState).error
      = some "Answer all questions to submit." := by
  decide

/-- C3, amended: whenever Submit fires with no free-text edit pending and
at least one empty Answer, the machine sets the error message, resets
`active_tab` to 0 (not to the first unanswered question), leaves every
Answer unchanged, leaves `complete` unchanged (false stays false), and
emits no reply.  (With a pending edit, the active answer's free text is
additionally whitespace-normalized, as the counterexample shows.) -/
theorem C3_submit_incomplete (s : PlanQuestionsView)
    (hedit : s.is_editing_free_text = false)
    (hempty : ∃ a ∈ s.answers, answer_is_nonempty a = false) :
    (PlanQuestionsView.submit s).error = some "Answer all questions to submit." ∧
    (PlanQuestionsView.submit s).active_tab = 0 ∧
    (PlanQuestionsView.submit s).answers = s.answers ∧
    (PlanQuestionsView.submit s).complete = s.complete ∧
    (PlanQuestionsView.submit s).sent_replies = s.sent_replies := by
  have hall : s.answers.all answer_is_nonempty = false := by
    obtain ⟨a, ha, hne⟩ := hempty
    cases hca : s.answers.all answer_is_nonempty with
    | false => rfl
    | true =>
      have := List.all_eq_true.mp hca a ha
      rw [hne] at this
      exact absurd this (by decide)
  simp only [PlanQuestionsView.submit]
  rw [save_id s hedit, hall]
  exact ⟨rfl, rfl, rfl, rfl, rfl⟩

/-- C3, witness: the amended theorem applied to a concrete state. -/
theorem C3_witness :
    (PlanQuestionsView.submit incompleteState).error
        = some "Answer all questions to submit." ∧
    (PlanQuestionsView.submit incompleteState).active_tab = 0 ∧
    (PlanQuestionsView.submit incompleteState).answers = incompleteState.answers ∧
    (PlanQuestionsView.submit incompleteState).complete = incompleteState.complete ∧
    (PlanQuestionsView.submit incompleteState).sent_replies
        = incompleteState.sent_replies :=
  C3_submit_incomplete incompleteState rfl ⟨⟨[], none⟩, by decide, by decide⟩

/-- C5: from the initial state of Scenario A's round, QuickSelect(1) then
QuickSelect(1) ends complete with exactly one reply "1\n1" (the first
selects option 1 of question 1 and auto-advances; the second selects
option 1 of question 2, reaches the submit tab and auto-submits). -/
theorem C5_quickselect_autosubmit :
    (List.foldl step (PlanQuestionsView.new scenarioARound)
      [InputEvent.key (KeyEvt.char '1'), InputEvent.key (KeyEvt.char '1')]).complete = true ∧
    (List.foldl step (PlanQuestionsView.new scenarioARound)
      [InputEvent.key (KeyEvt.char '1'), InputEvent.key (KeyEvt.char '1')]).sent_replies
      = ["1\n1"] := by
  decide

/-- C7, counterexample: from the initial state of a one-question round
(whose answer is empty), NavigateRight moves `active_tab` to 1 — the
virtual submit step — and sets no error, refuting "leaves active_tab
unchanged at 0 and sets a non-none error". -/
theorem C7_counterexample :
    (PlanQuestionsView.handle_key_event (PlanQuestionsView.new oneQuestionRound)
        KeyEvt.right).active_tab = 1 ∧
    (PlanQuestionsView.handle_key_event (PlanQuestionsView.new oneQuestionRound)
        KeyEvt.right).error = none := by
  decide

/-- C7, amended: from the initial state of any non-empty round (all
Answers empty), NavigateRight increments `active_tab` to 1 — reaching the
submit step is not refused and no error is set; auto-submission simply
does not fire because some Answer is empty, so the interaction stays
incomplete with no reply. -/
theorem C7_navigate_right_empty (round : PlanQuestionRound)
    (hne : round.questions ≠ []) :
    (PlanQuestionsView.handle_key_event (PlanQuestionsView.new round)
        KeyEvt.right).active_tab = 1 ∧
    (PlanQuestionsView.handle_key_event (PlanQuestionsView.new round)
        KeyEvt.right).error = none ∧
    (PlanQuestionsView.handle_key_event (PlanQuestionsView.new round)
        KeyEvt.right).complete = false ∧
    (PlanQuestionsView.handle_key_event (PlanQuestionsView.new round)
        KeyEvt.right).sent_replies = [] := by
  have hlen : 0 < round.questions.length := List.length_pos.mpr hne
  have h1 : PlanQuestionsView.handle_key_event (PlanQuestionsView.new round) KeyEvt.right
      = PlanQuestionsView.move_tab_right (PlanQuestionsView.new round) := rfl
  rw [h1]
  unfold PlanQuestionsView.move_tab_right
  rw [save_id _ rfl]
  rw [if_pos (show (PlanQuestionsView.new round).active_tab
    < (PlanQuestionsView.new round).round.questions.length from hlen)]
  rw [if_neg]
  · exact ⟨rfl, rfl, rfl, rfl⟩
  · rintro ⟨-, hall⟩
    have h2 : (List.replicate round.questions.length defaultAnswer).all answer_is_nonempty
        = true := hall
    rw [all_replicate_default_false _ hlen] at h2
    simp at h2

/-- C7, witness: the amended theorem applied to a concrete round. -/
theorem C7_witness :
    (PlanQuestionsView.handle_key_event (PlanQuestionsView.new scenarioARound)
        KeyEvt.right).active_tab = 1 ∧
    (PlanQuestionsView.handle_key_event (PlanQuestionsView.new scenarioARound)
        KeyEvt.right).error = none ∧
    (PlanQuestionsView.handle_key_event (PlanQuestionsView.new scenarioARound)
        KeyEvt.right).complete = false ∧
    (PlanQuestionsView.handle_key_event (PlanQuestionsView.new scenarioARound)
        KeyEvt.right).sent_replies = [] :=
  C7_navigate_right_empty scenarioARound (by decide)

/-- C9: while `is_editing_free_text` is true, an Escape key press sets
`complete = true` and emits no reply — it abandons the whole round (the
edit mode flag, answers and tab are untouched, so it does not merely exit
free-text editing back to option navigation). -/
theorem C9_escape_cancels_round (s : PlanQuestionsView)
    (h : s.is_editing_free_text = true) :
    (step s (InputEvent.key KeyEvt.esc)).complete = true ∧
    (step s (InputEvent.key KeyEvt.esc)).sent_replies = s.sent_replies ∧
    (step s (InputEvent.key KeyEvt.esc)).answers = s.answers ∧
    (step s (InputEvent.key KeyEvt.esc)).is_editing_free_text = true ∧
    (step s (InputEvent.key KeyEvt.esc)).active_tab = s.active_tab := by
  have h1 : step s (InputEvent.key KeyEvt.esc) = { s with complete := true } := by
    simp only [step, PlanQuestionsView.handle_key_event]
    rw [if_pos h]
    rfl
  rw [h1]
  exact ⟨rfl, rfl, rfl, h, rfl⟩

/-- C9, witness: the theorem applied to a concrete editing state. -/
theorem C9_witness :
    (step editingState (InputEvent.key KeyEvt.esc)).complete = true ∧
    (step editingState (InputEvent.key KeyEvt.esc)).sent_replies
        = editingState.sent_replies ∧
    (step editingState (InputEvent.key KeyEvt.esc)).answers = editingState.answers ∧
    (step editingState (InputEvent.key KeyEvt.esc)).is_editing_free_text = true ∧
    (step editingState (InputEvent.key KeyEvt.esc)).active_tab
        = editingState.active_tab :=
  C9_escape_cancels_round editingState rfl

/-- C10: activating (toggling) the free-text sentinel on a question whose
answer has a selected option but no saved free text sets the answer's free
text to Some("") and clears its selection, so the previously answered
question (answer_is_nonempty = true) becomes unanswered
(answer_is_nonempty = false) until text is typed. -/
theorem C10_sentinel_reverts_answer (s : PlanQuestionsView) (idx : Nat)
    (q : PlanQuestion) (opt : QuestionOption) (a : QuestionAnswer)
    (hq : s.round.questions[s.active_tab]? = some q)
    (hsel : s.selected_idx = some idx)
    (hopt : q.options[idx]? = some opt)
    (hft : opt.is_free_text = true)
    (ha : s.answers[s.active_tab]? = some a)
    (hfree : a.free_text = none)
    (hnonempty : a.selected_option_indices ≠ []) :
    (PlanQuestionsView.toggle_selected s).answers[s.active_tab]?
        = some { selected_option_indices := [], free_text := some "" } ∧
    answer_is_nonempty a = true ∧
    answer_is_nonempty { selected_option_indices := [], free_text := some "" }
        = false ∧
    (PlanQuestionsView.toggle_selected s).is_editing_free_text = true := by
  have hlt : s.active_tab < s.round.questions.length :=
    (List.getElem?_eq_some.mp hq).1
  have hlt2 : s.active_tab < s.answers.length :=
    (List.getElem?_eq_some.mp ha).1
  unfold PlanQuestionsView.toggle_selected
  rw [if_neg (show ¬({ s with error := none } : PlanQuestionsView).is_submit_tab = true by
    simp only [PlanQuestionsView.is_submit_tab]
    simp only [decide_eq_true_eq]
    omega)]
  dsimp only
  rw [hsel]
  dsimp only
  rw [hq]
  dsimp only
  rw [hopt]
  dsimp only
  rw [if_pos hft]
  rw [ha]
  dsimp only
  rw [hfree]
  refine ⟨?_, ?_, by decide, rfl⟩
  · simp [List.getElem?_set_eq_of_lt, hlt2]
  · simp only [answer_is_nonempty, hfree]
    cases hsel2 : a.selected_option_indices with
    | nil => exact absurd hsel2 hnonempty
    | cons x xs => rfl

/-- C10, witness: the theorem applied to a concrete state whose cursor
rests on the sentinel of an answered question. -/
theorem C10_witness :
    (PlanQuestionsView.toggle_selected sentinelCursorState).answers[sentinelCursorState.active_tab]?
        = some { selected_option_indices := [], free_text := some "" } ∧
    answer_is_nonempty ⟨[1], none⟩ = true ∧
    answer_is_nonempty { selected_option_indices := [], free_text := some "" } = false ∧
    (PlanQuestionsView.toggle_selected sentinelCursorState).is_editing_free_text = true :=
  C10_sentinel_reverts_answer sentinelCursorState 2
    { label := "Q2", prompt := "Pick one", kind := .SingleSelect,
      options := [⟨"A", none, false⟩, ⟨"B", none, false⟩, sentinelOption] }
    sentinelOption ⟨[1], none⟩ (by decide) rfl (by decide) (by decide) (by decide) rfl
    (by decide)
